import Mathlib

/-!
# Verification of the research-agent ingestion and retrieval pipeline

Shallow embedding of the repository's core operations:

* `src/research_agent/src/storage/db.py` — `DatabaseManager.upsert_article`,
  `upsert_crawled_content`, `fetch_articles_for_embedding`, `aggregate_signals`.
* `src/research_agent/src/processors/preprocess.py` — `build_document_for_embedding`.
* `src/research_agent/src/processors/validator.py` — `MarketValidator._compute_score`.
* `src/research_agent/src/vector_store/vector_store.py` — `VectorStore.add_documents`
  and `VectorStore.query` (the chroma collection itself is an external collaborator
  and is modelled, see the doc comments on `chromaAdd` and `queryModel`).
* `src/research_agent/cli.py` — the persist loop of `cmd_ingest` and the
  document-selection loop feeding the vector store.

Modelling conventions:
* SQLite rows are Lean structures; `NULL`-able columns are `Option` fields.
* Timestamps (ISO-8601 strings in the source) are modelled as `Int`; the
  lexicographic order on ISO strings agrees with the numeric order on times.
* Python dict `.get` misses and `None` values are both `Option.none`.
* A table is a `List` of rows in rowid (insertion) order; the SQLite
  `AUTOINCREMENT` id counter is the `nextId` field of the store state.
* Fallible code (the `raise ValueError` path of `upsert_article`) returns
  `Except String`.
-/

namespace ResearchAgent

/-- Python `str.strip()` with no argument: remove leading and trailing
whitespace. (Defined over the character list so that it evaluates by
kernel reduction; `String.trim` is defined by well-founded recursion and
does not.) -/
def pyStrip (s : String) : String :=
  ⟨((s.data.dropWhile Char.isWhitespace).reverse.dropWhile Char.isWhitespace).reverse⟩

/-- Python `str.lower()`; the strings compared in the source are ASCII. -/
def pyLower (s : String) : String :=
  ⟨s.data.map Char.toLower⟩

/-- Python `a or b` on optional strings: `a` unless it is `None` or empty
(both are falsy in Python), in which case `b`. -/
def pyOrStr (a b : Option String) : Option String :=
  match a with
  | some s => if s = "" then b else some s
  | none => b

/-- SQL `COALESCE(incoming, stored)`: the incoming value when non-NULL,
otherwise the stored one. -/
def coalesce {α : Type} (incoming stored : Option α) : Option α :=
  match incoming with
  | some v => some v
  | none => stored

/-- Python `int(x or 0)` on an optional integer. -/
def pyIntOr (o : Option Int) : Int :=
  o.getD 0

/-- A raw per-source record as passed to `upsert_article` (a Python dict;
absent keys and `None` values are both `none`). -/
structure ArticleInput where
  url : Option String
  arxiv_url : Option String
  hn_url : Option String
  title : Option String
  source : Option String
  author : Option String
  created_at : Option Int
  published_date : Option Int
  points : Option Int
  comments_count : Option Int
  description : Option String
  abstract : Option String
  category : Option String
  arxiv_id : Option String
deriving DecidableEq

/-- A row of the `articles` table (db.py `_init_schema`). -/
structure ArticleRow where
  id : Nat
  url : String
  title : Option String
  source : Option String
  author : Option String
  created_at : Option Int
  published_date : Option Int
  points : Option Int
  comments_count : Option Int
  description : Option String
  abstract : Option String
  category : Option String
  arxiv_id : Option String
  hn_url : Option String
  topic : Option String
  inserted_at : Int
  updated_at : Int
deriving DecidableEq

/-- A row of the `crawled_content` table (db.py `_init_schema`); the
surrogate `id` column plays no role in the code and is omitted. -/
structure ContentRow where
  article_id : Nat
  url : Option String
  markdown_content : Option String
  word_count : Option Int
  crawled_at : Option Int
  updated_at : Int
deriving DecidableEq

/-- The SQLite database state: both tables in rowid order plus the
autoincrement counter for `articles`. -/
structure DB where
  articles : List ArticleRow
  contents : List ContentRow
  nextId : Nat
deriving DecidableEq

/-- The empty database produced by `_init_schema` (rowids start at 1). -/
def emptyDB : DB := ⟨[], [], 1⟩

/-- db.py line 71-73: `url = article.get('url') or article.get('arxiv_url')
or article.get('hn_url')` followed by the `if not url` truthiness check;
yields `none` when no non-empty identifying URL is present. -/
def resolveUrl (a : ArticleInput) : Option String :=
  match pyOrStr (pyOrStr a.url a.arxiv_url) a.hn_url with
  | some s => if s = "" then none else some s
  | none => none

/-- The row written by the INSERT branch of `upsert_article` (db.py lines
118-145): numeric fields are `int(... or 0)`, both timestamps are `now`. -/
def insertRow (a : ArticleInput) (topic : Option String) (u : String) (id : Nat) (now : Int) :
    ArticleRow :=
  { id := id
    url := u
    title := a.title
    source := a.source
    author := a.author
    created_at := a.created_at
    published_date := a.published_date
    points := some (pyIntOr a.points)
    comments_count := some (pyIntOr a.comments_count)
    description := a.description
    abstract := a.abstract
    category := a.category
    arxiv_id := a.arxiv_id
    hn_url := a.hn_url
    topic := topic
    inserted_at := now
    updated_at := now }

/-- The row produced by the UPDATE branch of `upsert_article` (db.py lines
80-116): every attribute column is `COALESCE(incoming, stored)`,
`updated_at` is set to `now`; `url`, `inserted_at` and `id` are not in the
SET list. -/
def mergeRow (r : ArticleRow) (a : ArticleInput) (topic : Option String) (now : Int) :
    ArticleRow :=
  { r with
    title := coalesce a.title r.title
    source := coalesce a.source r.source
    author := coalesce a.author r.author
    created_at := coalesce a.created_at r.created_at
    published_date := coalesce a.published_date r.published_date
    points := coalesce a.points r.points
    comments_count := coalesce a.comments_count r.comments_count
    description := coalesce a.description r.description
    abstract := coalesce a.abstract r.abstract
    category := coalesce a.category r.category
    arxiv_id := coalesce a.arxiv_id r.arxiv_id
    hn_url := coalesce a.hn_url r.hn_url
    topic := coalesce topic r.topic
    updated_at := now }

/-- db.py `upsert_article` (lines 69-147): resolve the canonical URL (raising
on a missing identifier), look the URL up, then UPDATE with coalesce-merge or
INSERT a fresh row; returns the row id. -/
def upsert_article (db : DB) (article : ArticleInput) (topic : Option String) (now : Int) :
    Except String (DB × Nat) :=
  match resolveUrl article with
  | none => .error "Article missing canonical URL"
  | some u =>
    match db.articles.find? (fun r => r.url == u) with
    | some r =>
      .ok ({ db with
              articles := db.articles.map
                (fun x => if x.id == r.id then mergeRow r article topic now else x) },
           r.id)
    | none =>
      .ok ({ db with
              articles := db.articles ++ [insertRow article topic u db.nextId now]
              nextId := db.nextId + 1 },
           db.nextId)

/-- db.py `upsert_crawled_content` (lines 149-177): keyed by `article_id`;
the UPDATE branch sets `url`, `markdown_content`, `word_count` outright and
coalesces only `crawled_at`; the INSERT branch defaults `word_count` to 0 and
`crawled_at` to `now` when falsy. -/
def upsert_crawled_content (db : DB) (article_id : Nat) (url : Option String)
    (markdown : Option String) (word_count : Option Int) (crawled_at : Option Int)
    (now : Int) : DB :=
  match db.contents.find? (fun c => c.article_id == article_id) with
  | some _ =>
    { db with
      contents := db.contents.map (fun x =>
        if x.article_id == article_id then
          { x with
            url := url
            markdown_content := markdown
            word_count := some (pyIntOr word_count)
            crawled_at := coalesce crawled_at x.crawled_at
            updated_at := now }
        else x) }
  | none =>
    { db with
      contents := db.contents ++
        [{ article_id := article_id
           url := url
           markdown_content := markdown
           word_count := some (pyIntOr word_count)
           crawled_at := some (crawled_at.getD now)
           updated_at := now }] }

/-- A row of the result set of `fetch_articles_for_embedding` (db.py
lines 184-185: SELECT url, title, source, description, abstract and the
COALESCEd content text). -/
structure FetchRow where
  url : String
  title : Option String
  source : Option String
  description : Option String
  abstract : Option String
  markdown_content : String
deriving DecidableEq

/-- `COALESCE(cc.markdown_content, '')` for the LEFT JOIN on
`cc.article_id = a.id`: empty string when the article has no content row
(or the row's text is NULL). -/
def contentTextFor (contents : List ContentRow) (aid : Nat) : String :=
  match contents.find? (fun c => c.article_id == aid) with
  | some c => c.markdown_content.getD ""
  | none => ""

/-- The projection of one article through the LEFT JOIN of db.py lines
184-187. -/
def projectRow (contents : List ContentRow) (a : ArticleRow) : FetchRow :=
  { url := a.url
    title := a.title
    source := a.source
    description := a.description
    abstract := a.abstract
    markdown_content := contentTextFor contents a.id }

/-- SQL descending comparison on a nullable `published_date` column:
`pubDescBle x y` says a row with date `x` may appear no later than one with
date `y` under `ORDER BY published_date DESC` (SQL NULL sorts below every
value, hence last in descending order). -/
def pubDescBle (x y : Option Int) : Bool :=
  match x, y with
  | _, none => true
  | none, some _ => false
  | some a, some b => decide (b ≤ a)

/-- The ascending order of the `idx_articles_published` index on article
rows: `a` is stored no later than `b` in the index when `a`'s date is at or
below `b`'s (SQL NULL below every value); entries with equal keys are
stored in rowid order. -/
def fetchAscLe (a b : ArticleRow) : Prop :=
  pubDescBle b.published_date a.published_date = true

instance : DecidableRel fetchAscLe :=
  fun a b => instDecidableEqBool (pubDescBle b.published_date a.published_date) true

/-- db.py `fetch_articles_for_embedding` (lines 179-191): the LEFT JOIN of
the two tables, `ORDER BY a.published_date DESC`. SQLite satisfies the
ORDER BY by scanning `idx_articles_published` (created by `_init_schema`)
backwards: the index holds the rows ascending by date with rowid breaking
ties (modelled as a stable ascending sort of the rowid-ordered table), and
the reverse scan emits them date-descending, equal-date rows in reverse
rowid order, NULL dates last. -/
def fetch_articles_for_embedding (db : DB) : List FetchRow :=
  (List.insertionSort fetchAscLe db.articles).reverse.map (projectRow db.contents)

/-- The result dict of `aggregate_signals` (db.py lines 220-225). -/
structure AggResult where
  articles : Int
  hn_points : Int
  hn_comments : Int
  crawled_count : Int
deriving DecidableEq

/-- The topic clause of `aggregate_signals` (db.py lines 196-198): a
`topic = ?` equality clause is added only when `topic` is truthy
(non-`None`, non-empty); a row with NULL topic fails the SQL equality. -/
def topicMatch (topic : Option String) (r : ArticleRow) : Bool :=
  match topic with
  | some t => if t = "" then true else r.topic == some t
  | none => true

/-- The days clause of `aggregate_signals` (db.py lines 199-204): an
inclusive `COALESCE(published_date, created_at) >= cutoff` clause is added
only when `days` is supplied; a NULL comparison excludes the row. -/
def daysMatch (days : Option Int) (now : Int) (r : ArticleRow) : Bool :=
  match days with
  | some d =>
    match r.published_date.or r.created_at with
    | some ts => decide (now - d * 86400 ≤ ts)
    | none => false
  | none => true

/-- The WHERE clause assembled by `aggregate_signals` (db.py lines 194-206):
the conjunction of the optional topic clause and the optional days clause. -/
def whereMatch (topic : Option String) (days : Option Int) (now : Int)
    (r : ArticleRow) : Bool :=
  topicMatch topic r && daysMatch days now r

/-- db.py `aggregate_signals` (lines 193-225): COUNT and the two SUMs run
over the filtered `articles` rows (SQL `SUM` skips NULLs and the Python
`or 0` turns an all-NULL sum into 0); the crawled-content count is
`SELECT COUNT(*) FROM crawled_content` with no WHERE clause. -/
def aggregate_signals (db : DB) (topic : Option String) (days : Option Int)
    (now : Int) : AggResult :=
  let rows := db.articles.filter (whereMatch topic days now)
  { articles := (rows.length : Int)
    hn_points := (rows.map (fun r => pyIntOr r.points)).sum
    hn_comments := (rows.map (fun r => pyIntOr r.comments_count)).sum
    crawled_count := (db.contents.length : Int) }

/-- The metadata-persist loop of `cmd_ingest` (cli.py lines 50-59): each
record is upserted in turn with no exception handling, so the first
`ValueError` raised by `upsert_article` stops the loop; the rows committed
before it remain. Returns the store state reached and the error, if any. -/
def ingest_articles (db : DB) (records : List ArticleInput) (topic : Option String)
    (now : Int) : DB × Option String :=
  match records with
  | [] => (db, none)
  | a :: rest =>
    match upsert_article db a topic now with
    | .error e => (db, some e)
    | .ok (db', _) => ingest_articles db' rest topic now

/-- preprocess.py `build_document_for_embedding` (lines 9-20): up to three
labeled sections, each included only when non-empty after stripping (the
summary also only when its lowercase form is not "unknown"), joined with a
blank line. -/
def build_document_for_embedding (title : String) (summary : Option String)
    (full_content : Option String) : String :=
  let t := pyStrip title
  let parts : List String := if t ≠ "" then ["Title: " ++ t] else []
  let s := pyStrip (summary.getD "")
  let parts := if s ≠ "" ∧ pyLower s ≠ "unknown" then parts ++ ["Summary: " ++ s] else parts
  let c := pyStrip (full_content.getD "")
  let parts := if c ≠ "" then parts ++ ["Content:\n" ++ c] else parts
  String.intercalate "\n\n" parts

/-- The indexing-selection loop of `cmd_ingest` (cli.py lines 78-93): for
each fetched row build the document from `title or ''`,
`description or abstract or ''` and the content text, skip it when the
stripped document is empty, and otherwise index it under the row's url. -/
def selectDocsForIndexing (rows : List FetchRow) : List (String × String) :=
  rows.filterMap (fun row =>
    let doc := build_document_for_embedding (row.title.getD "")
      (some ((pyOrStr row.description row.abstract).getD ""))
      (some row.markdown_content)
    if pyStrip doc = "" then none else some (row.url, doc))

/-- One element of the `social_items` list consumed by
`MarketValidator._compute_score`; `.get` defaults are applied at use sites.
Python float arithmetic is modelled as exact rational arithmetic. -/
structure SocialItem where
  score : Option ℚ
  comments : Option ℚ
deriving DecidableEq

/-- The dict returned by `aggregate_signals` as consumed by
`_compute_score` through `.get(key, 0)`. -/
structure DbMetrics where
  articles : Option ℚ
  hn_points : Option ℚ
  hn_comments : Option ℚ
  crawled_count : Option ℚ
deriving DecidableEq

/-- The dict returned by `_compute_score`. -/
structure ScoreResult where
  base_score : ℚ
  social_score : ℚ
  total_score : ℚ
deriving DecidableEq

/-- validator.py `MarketValidator._compute_score` (lines 16-29): the social
score is Python's `sum` (a left fold from 0) of `score + comments * 0.5`
over the items; the base score is the four-term weighted sum; the total is
their sum. -/
def compute_score (db_metrics : DbMetrics) (social_items : List SocialItem) : ScoreResult :=
  let social_score :=
    social_items.foldl (fun acc item => acc + (item.score.getD 0 + item.comments.getD 0 * (1/2 : ℚ))) 0
  let base_score :=
    db_metrics.articles.getD 0 * 1 + db_metrics.hn_points.getD 0 * (1/2 : ℚ) +
      db_metrics.hn_comments.getD 0 * (1/5 : ℚ) + db_metrics.crawled_count.getD 0 * (1/10 : ℚ)
  { base_score := base_score
    social_score := social_score
    total_score := base_score + social_score }

/-- An entry of the chroma collection `research_articles`: id, document and
the metadata projection written by `cmd_ingest` (url, title, source). The
embedding vector itself plays no role in the identity semantics and is
omitted. -/
structure IndexEntry where
  id : String
  document : String
  murl : String
  mtitle : String
  msource : String
deriving DecidableEq

/-- Modelled from the chromadb client (the chromadb library is an external
collaborator, not part of this repository's sources): `Collection.add`
inserts each submitted record whose id is not yet in the collection and
ignores — with a logged warning, without overwriting — each record whose id
already exists. (`Collection.upsert`, which the wrapper does not call, is
the replacing variant.) -/
def chromaAdd (coll : List IndexEntry) (newEntries : List IndexEntry) : List IndexEntry :=
  newEntries.foldl
    (fun acc e => if acc.any (fun x => x.id == e.id) then acc else acc ++ [e]) coll

/-- vector_store.py `VectorStore.add_documents` (lines 22-24): zips the ids,
documents and metadata triples and hands them to `collection.add`. -/
def add_documents (coll : List IndexEntry) (ids : List String) (documents : List String)
    (metadatas : List (String × String × String)) : List IndexEntry :=
  chromaAdd coll
    ((ids.zip (documents.zip metadatas)).map
      (fun p => { id := p.1, document := p.2.1, murl := p.2.2.1
                  mtitle := p.2.2.2.1, msource := p.2.2.2.2 }))

/-- Ascending order on (entry, distance) pairs. -/
def queryDistLe (a b : IndexEntry × ℚ) : Prop := a.2 ≤ b.2

instance : DecidableRel queryDistLe :=
  fun a b => inferInstanceAs (Decidable (a.2 ≤ b.2))

instance : IsTotal (IndexEntry × ℚ) queryDistLe :=
  ⟨fun a b => le_total a.2 b.2⟩

instance : IsTrans (IndexEntry × ℚ) queryDistLe :=
  ⟨fun _ _ _ hab hbc => le_trans hab hbc⟩

/-- Modelled from the spec: `VectorStore.query` (vector_store.py lines
26-28) delegates to the external chroma `collection.query`, which per the
spec's collaborator interface returns the `n_results` nearest stored
entries by cosine distance, ascending, and fewer when the collection holds
fewer. The embedding model and the index's distance computation are black
boxes, abstracted as the distance assignment `dist` of the query text. -/
def queryModel (coll : List IndexEntry) (dist : IndexEntry → ℚ) (n_results : Nat) :
    List (IndexEntry × ℚ) :=
  (List.insertionSort queryDistLe (coll.map (fun e => (e, dist e)))).take n_results

/-! ### Spec-side definitions and invariants used by the theorems -/

/-- The claim's description of the embedding document, written independently
of the builder: the qualifying sections in the fixed Title/Summary/Content
order. -/
def qualifyingSections (title : String) (summary full_content : Option String) :
    List String :=
  (if pyStrip title ≠ "" then ["Title: " ++ pyStrip title] else []) ++
  (if pyStrip (summary.getD "") ≠ "" ∧ pyLower (pyStrip (summary.getD "")) ≠ "unknown" then
      ["Summary: " ++ pyStrip (summary.getD "")]
    else []) ++
  (if pyStrip (full_content.getD "") ≠ "" then
      ["Content:\n" ++ pyStrip (full_content.getD "")]
    else [])

/-- Publication time descending with ties broken by reverse insertion order
(descending rowid): `a` may precede `b` iff `b`'s date is strictly below
`a`'s, or the two dates tie and `a` was inserted later. -/
def fetchLexRevLe (a b : ArticleRow) : Prop :=
  pubDescBle b.published_date a.published_date = false ∨
    (pubDescBle a.published_date b.published_date = true ∧
     pubDescBle b.published_date a.published_date = true ∧ b.id ≤ a.id)

/-- The `UNIQUE(article_id)` constraint of the `crawled_content` table: at
most one content row per owning article. -/
def ContentUnique (db : DB) : Prop :=
  ∀ aid : Nat, (db.contents.filter (fun c => c.article_id == aid)).length ≤ 1

/-- The arguments of one `upsert_crawled_content` call. -/
structure AttachCall where
  article_id : Nat
  url : Option String
  markdown : Option String
  word_count : Option Int
  crawled_at : Option Int
  now : Int
deriving DecidableEq

/-- A sequence of `upsert_crawled_content` calls applied in order. -/
def applyAttaches (db : DB) (calls : List AttachCall) : DB :=
  calls.foldl
    (fun d k => upsert_crawled_content d k.article_id k.url k.markdown k.word_count
      k.crawled_at k.now) db

/-! ### Concrete inputs used by witnesses and counterexamples -/

/-- A record supplying every identifying URL as absent. -/
def noUrlInput : ArticleInput :=
  ⟨none, none, none, none, none, none, none, none, none, none, none, none, none, none⟩

/-- A well-formed record with an explicit URL. -/
def okInput : ArticleInput :=
  { noUrlInput with url := some "https://example.org/ok", title := some "ok" }

/-- First upsert of the idempotent-upsert scenario: a discussion-site record. -/
def hnInput : ArticleInput :=
  { noUrlInput with
    url := some "https://example.org/p1", title := some "T1", source := some "hackernews"
    points := some 10, comments_count := some 3 }

/-- Second upsert of the scenario: the same URL with only a description. -/
def rssInput : ArticleInput :=
  { noUrlInput with url := some "https://example.org/p1", description := some "hello" }

/-- An article row under topic "a" with engagement metrics. -/
def topicARow : ArticleRow :=
  ⟨1, "u1", none, none, none, none, none, some 2, some 3, none, none, none, none, none,
   some "a", 0, 0⟩

/-- A store holding one topic-"a" article that has attached content. -/
def dbTopicContent : DB :=
  ⟨[topicARow], [⟨1, some "u1", some "x", some 1, some 0, 0⟩], 2⟩

/-- A fetched row whose built document is non-empty. -/
def demoFetchRow : FetchRow :=
  ⟨"u1", some "T", none, some "unknown", none, ""⟩

/-- Three indexed entries. -/
def demoColl : List IndexEntry :=
  [⟨"a", "da", "", "", ""⟩, ⟨"b", "db", "", "", ""⟩, ⟨"c", "dc", "", "", ""⟩]

/-- A concrete distance assignment for the demo query. -/
def demoDist (e : IndexEntry) : ℚ :=
  if e.id = "b" then 1 else 2

/-- Article rows with a duplicate publication date and a NULL one. -/
def demoArticles : List ArticleRow :=
  [{ topicARow with id := 1, url := "a", published_date := some 10 },
   { topicARow with id := 2, url := "b", published_date := some 20 },
   { topicARow with id := 3, url := "c", published_date := some 20 },
   { topicARow with id := 4, url := "d", published_date := none }]

/-- A stored row for the update-path frame witness. -/
def frameRow : ArticleRow :=
  ⟨1, "https://example.org/p1", some "T1", none, none, none, none, some 0, some 0,
   none, none, none, none, none, some "ai", 7, 7⟩

/-- A first content attachment. -/
def demoAttach1 : AttachCall := ⟨1, some "u1", some "body", some 5, some 10, 100⟩

/-- A re-attachment of the same entity supplying only nulls. -/
def demoAttach2 : AttachCall := ⟨1, none, none, none, none, 200⟩

/-! ### Helper lemmas -/

/-- `find?` over a list ending in the first satisfying element. -/
theorem find?_append_singleton {α : Type} (p : α → Bool) (l : List α) (a : α)
    (h : ∀ x ∈ l, p x = false) (ha : p a = true) :
    (l ++ [a]).find? p = some a := by
  have h1 : l.find? p = none := List.find?_eq_none.2 (fun x hx => by simp [h x hx])
  rw [List.find?_append, h1, List.find?_cons_of_pos _ ha]
  rfl

/-- Python's `sum` (a left fold from an accumulator) agrees with the sum of
the mapped list. -/
theorem foldl_add_eq_sum {α : Type} (f : α → ℚ) (l : List α) (a : ℚ) :
    l.foldl (fun acc x => acc + f x) a = a + (l.map f).sum := by
  induction l generalizing a with
  | nil => simp
  | cons x t ih => simp [ih, add_assoc]

/-! ### Claims -/

/-- C9: `_compute_score` is a pure function of the aggregate dict and the
social-item list; its social component is the sum over the items of
`score + comments * 0.5`, its base component is
`count*1.0 + points*0.5 + comments*0.2 + content_count*0.1`, and its total
is their sum; in particular one social item with score 5 and 2 comments
yields a social score of 6. (Float literals 0.5, 0.2, 0.1 are modelled as
the exact rationals 1/2, 1/5, 1/10.) -/
theorem compute_score_formula :
    (∀ (m : DbMetrics) (items : List SocialItem),
      (compute_score m items).social_score =
        (items.map (fun item => item.score.getD 0 + item.comments.getD 0 * (1/2 : ℚ))).sum ∧
      (compute_score m items).base_score =
        m.articles.getD 0 * 1 + m.hn_points.getD 0 * (1/2 : ℚ) +
          m.hn_comments.getD 0 * (1/5 : ℚ) + m.crawled_count.getD 0 * (1/10 : ℚ) ∧
      (compute_score m items).total_score =
        (compute_score m items).base_score + (compute_score m items).social_score) ∧
    (compute_score ⟨some 2, some 10, some 4, some 1⟩ [⟨some 5, some 2⟩]).social_score = 6 := by
  constructor
  · intro m items
    refine ⟨?_, rfl, rfl⟩
    show items.foldl (fun acc item => acc + (item.score.getD 0 + item.comments.getD 0 * (1/2 : ℚ))) 0 = _
    rw [foldl_add_eq_sum]
    simp
  · show ([(⟨some 5, some 2⟩ : SocialItem)].foldl
      (fun acc item => acc + (item.score.getD 0 + item.comments.getD 0 * (1/2 : ℚ))) 0) = 6
    norm_num

/-- C5 (code bug): re-running indexing for an already-indexed id does not
replace the stored entry. The spec requires `add` to have upsert semantics
keyed by id ("re-indexing the same URL replaces, never duplicates"), but
`VectorStore.add_documents` calls the chroma collection's `add`, which
ignores records whose id already exists: after indexing id "u1" with
document "d1" and re-indexing it with "d2", the collection still holds the
original entry with document "d1" — the count for the id stays 1 (that part
of the claim holds) but the entry is not updated. -/
theorem vector_add_does_not_replace :
    add_documents (add_documents [] ["u1"] ["d1"] [("u1", "t1", "s1")])
        ["u1"] ["d2"] [("u1", "t1", "s1")] =
      [{ id := "u1", document := "d1", murl := "u1", mtitle := "t1", msource := "s1" }] ∧
    ((add_documents (add_documents [] ["u1"] ["d1"] [("u1", "t1", "s1")])
        ["u1"] ["d2"] [("u1", "t1", "s1")]).filter (fun e => e.id == "u1")).length = 1 := by
  constructor <;> rfl

/-- C2 (code bug): `upsert_article` resolves identity as the first non-empty
of url, arxiv_url, hn_url and fails with a missing-identifier `ValueError`
when none is present — but the persist loop of `cmd_ingest` has no exception
handling, so that failure aborts the whole batch: ingesting a batch whose
first record lacks every identifying URL raises and leaves the following
valid record unstored, contradicting the claim that only the failing record
is skipped while the rest of the batch continues. -/
theorem ingest_missing_identifier_aborts_batch :
    resolveUrl noUrlInput = none ∧
    resolveUrl okInput = some "https://example.org/ok" ∧
    ingest_articles emptyDB [noUrlInput, okInput] (some "ai") 0 =
      (emptyDB, some "Article missing canonical URL") := by
  refine ⟨rfl, rfl, rfl⟩

/-- C3 counterexample: on a store holding one topic-"a" article with
attached content, `aggregate_signals` with topic filter "b" matches no
article row, yet returns a content count of 1: the fourth component is
`SELECT COUNT(*) FROM crawled_content` with no WHERE clause, so it is not
computed over the rows satisfying the filters and is not zero when no rows
match — refuting the claim as stated. -/
theorem aggregate_content_count_ignores_filters_cex :
    (dbTopicContent.articles.filter (whereMatch (some "b") none 0)).length = 0 ∧
    aggregate_signals dbTopicContent (some "b") none 0 =
      { articles := 0, hn_points := 0, hn_comments := 0, crawled_count := 1 } ∧
    (aggregate_signals dbTopicContent (some "b") none 0).crawled_count ≠ 0 := by
  refine ⟨rfl, rfl, ?_⟩
  intro h
  simp [aggregate_signals, dbTopicContent] at h

/-- C10: on the update path of `upsert_article` (the incoming canonical URL
is already stored), the stored `url` and `inserted_at` are never modified —
the UPDATE's SET list touches only the attribute columns and `updated_at` —
and rows other than the matched one are left unchanged. -/
theorem upsert_update_frame
    (db : DB) (a : ArticleInput) (topic : Option String) (now : Int) (u : String)
    (r : ArticleRow)
    (hu : resolveUrl a = some u)
    (hfind : db.articles.find? (fun x => x.url == u) = some r) :
    upsert_article db a topic now =
      .ok ({ db with
               articles := db.articles.map
                 (fun x => if x.id == r.id then mergeRow r a topic now else x) },
           r.id) ∧
    (mergeRow r a topic now).url = r.url ∧
    (mergeRow r a topic now).inserted_at = r.inserted_at ∧
    (mergeRow r a topic now).id = r.id ∧
    ∀ x ∈ db.articles, x.id ≠ r.id →
      x ∈ db.articles.map (fun y => if y.id == r.id then mergeRow r a topic now else y) := by
  refine ⟨?_, rfl, rfl, rfl, ?_⟩
  · simp only [upsert_article, hu, hfind]
  · intro x hx hne
    exact List.mem_map.2 ⟨x, hx, by simp [hne]⟩

/-- Witness for C10 at a concrete store: updating the stored article keeps
its url and insertion timestamp. -/
theorem upsert_update_frame_inst :
    upsert_article ⟨[frameRow], [], 2⟩ rssInput (some "ai") 9 =
      .ok ({ (⟨[frameRow], [], 2⟩ : DB) with
               articles := [frameRow].map
                 (fun x => if x.id == frameRow.id then mergeRow frameRow rssInput (some "ai") 9 else x) },
           frameRow.id) ∧
    (mergeRow frameRow rssInput (some "ai") 9).url = frameRow.url ∧
    (mergeRow frameRow rssInput (some "ai") 9).inserted_at = frameRow.inserted_at ∧
    (mergeRow frameRow rssInput (some "ai") 9).id = frameRow.id ∧
    ∀ x ∈ (⟨[frameRow], [], 2⟩ : DB).articles, x.id ≠ frameRow.id →
      x ∈ [frameRow].map
        (fun y => if y.id == frameRow.id then mergeRow frameRow rssInput (some "ai") 9 else y) :=
  upsert_update_frame ⟨[frameRow], [], 2⟩ rssInput (some "ai") 9
    "https://example.org/p1" frameRow rfl (by rfl)

/-- C4: `build_document_for_embedding` returns the sections whose trimmed
value is non-empty (Summary additionally omitted when its lowercase form is
"unknown"), in the fixed Title/Summary/Content order, joined by a single
blank line; the two concrete examples of the spec hold; and the ingest
loop's indexing selection never indexes an entity whose built document is
empty. -/
theorem build_document_spec :
    (∀ (t : String) (s c : Option String),
      build_document_for_embedding t s c =
        String.intercalate "\n\n" (qualifyingSections t s c)) ∧
    build_document_for_embedding "" (some "Unknown") (some "") = "" ∧
    build_document_for_embedding "T" (some "unknown") (some "") = "Title: T" ∧
    (∀ (rows : List FetchRow) (p : String × String),
      p ∈ selectDocsForIndexing rows → p.2 ≠ "") := by
  refine ⟨?_, by decide, by decide, ?_⟩
  · intro t s c
    simp only [build_document_for_embedding, qualifyingSections]
    split_ifs <;> simp_all
  · intro rows p hp
    simp only [selectDocsForIndexing, List.mem_filterMap] at hp
    obtain ⟨row, _, hopt⟩ := hp
    split at hopt
    · exact absurd hopt (by simp)
    · rename_i hne
      rw [Option.some_inj] at hopt
      subst hopt
      intro hempty
      have hd : build_document_for_embedding (row.title.getD "")
          (some ((pyOrStr row.description row.abstract).getD ""))
          (some row.markdown_content) = "" := hempty
      rw [hd] at hne
      exact hne rfl

/-- Witness for C4 at a concrete fetched row whose document is "Title: T"
(description "unknown" is dropped): the row is selected and its document is
non-empty. -/
theorem build_document_spec_inst :
    ("u1", "Title: T") ∈ selectDocsForIndexing [demoFetchRow] ∧
    (("u1", "Title: T") : String × String).2 ≠ "" :=
  ⟨by decide, build_document_spec.2.2.2 [demoFetchRow] ("u1", "Title: T") (by decide)⟩

/-- C3 (amended): for every call — topic filter, days filter, both, or
neither supplied — the entity count and the two engagement sums of
`aggregate_signals` are computed over exactly the rows passing the optional
topic clause and the optional inclusive now-minus-days bound on
publication-else-creation time (the topic clause is row-topic equality when
a non-empty topic is supplied, and trivially true when the topic is absent
or empty, since the code then adds no clause), and are zero (with no error)
when no rows match; the fourth component, however, is the total number of
crawled-content rows, ignoring both filters (see the counterexample); on an
empty store all four components are zero. -/
theorem aggregate_signals_filtered_components
    (db : DB) (topic : Option String) (days : Option Int) (now : Int) :
    (aggregate_signals db topic days now).articles =
      (((db.articles.filter (topicMatch topic)).filter
          (daysMatch days now)).length : Int) ∧
    (aggregate_signals db topic days now).hn_points =
      (((db.articles.filter (topicMatch topic)).filter
          (daysMatch days now)).map (fun r => r.points.getD 0)).sum ∧
    (aggregate_signals db topic days now).hn_comments =
      (((db.articles.filter (topicMatch topic)).filter
          (daysMatch days now)).map (fun r => r.comments_count.getD 0)).sum ∧
    (aggregate_signals db topic days now).crawled_count = (db.contents.length : Int) ∧
    (∀ (t : String) (r : ArticleRow), t ≠ "" →
      topicMatch (some t) r = (r.topic == some t)) ∧
    (∀ r : ArticleRow, topicMatch none r = true) ∧
    ((∀ r ∈ db.articles, ¬ whereMatch topic days now r = true) →
      (aggregate_signals db topic days now).articles = 0 ∧
      (aggregate_signals db topic days now).hn_points = 0 ∧
      (aggregate_signals db topic days now).hn_comments = 0) ∧
    aggregate_signals emptyDB topic days now =
      { articles := 0, hn_points := 0, hn_comments := 0, crawled_count := 0 } := by
  have hfilt : db.articles.filter (whereMatch topic days now) =
      (db.articles.filter (topicMatch topic)).filter (daysMatch days now) := by
    rw [List.filter_filter]
    apply List.filter_congr
    intro r _
    simp [whereMatch, Bool.and_comm]
  refine ⟨?_, ?_, ?_, rfl, ?_, fun r => rfl, ?_, by rfl⟩
  · simp only [aggregate_signals, hfilt]
  · simp only [aggregate_signals, hfilt, pyIntOr]
  · simp only [aggregate_signals, hfilt, pyIntOr]
  · intro t r ht
    simp [topicMatch, ht]
  · intro hnone
    have hnil : db.articles.filter (whereMatch topic days now) = [] :=
      List.filter_eq_nil_iff.2 hnone
    simp only [aggregate_signals, hnil]
    exact ⟨rfl, rfl, rfl⟩

/-- Witness for C3's amended statement at a days-only call (no topic
filter) on the concrete store with one dateless topic-"a" article carrying
content. -/
theorem aggregate_signals_filtered_components_inst :
    (aggregate_signals dbTopicContent none (some 1) 0).articles =
      (((dbTopicContent.articles.filter (topicMatch none)).filter
          (daysMatch (some 1) 0)).length : Int) ∧
    (aggregate_signals dbTopicContent none (some 1) 0).hn_points =
      (((dbTopicContent.articles.filter (topicMatch none)).filter
          (daysMatch (some 1) 0)).map (fun r => r.points.getD 0)).sum ∧
    (aggregate_signals dbTopicContent none (some 1) 0).hn_comments =
      (((dbTopicContent.articles.filter (topicMatch none)).filter
          (daysMatch (some 1) 0)).map (fun r => r.comments_count.getD 0)).sum ∧
    (aggregate_signals dbTopicContent none (some 1) 0).crawled_count =
      (dbTopicContent.contents.length : Int) ∧
    (∀ (t : String) (r : ArticleRow), t ≠ "" →
      topicMatch (some t) r = (r.topic == some t)) ∧
    (∀ r : ArticleRow, topicMatch none r = true) ∧
    ((∀ r ∈ dbTopicContent.articles, ¬ whereMatch none (some 1) 0 r = true) →
      (aggregate_signals dbTopicContent none (some 1) 0).articles = 0 ∧
      (aggregate_signals dbTopicContent none (some 1) 0).hn_points = 0 ∧
      (aggregate_signals dbTopicContent none (some 1) 0).hn_comments = 0) ∧
    aggregate_signals emptyDB none (some 1) 0 =
      { articles := 0, hn_points := 0, hn_comments := 0, crawled_count := 0 } :=
  aggregate_signals_filtered_components dbTopicContent none (some 1) 0

/-- C7 counterexample: attach content for entity 1 with url "u1", text
"body", word count 5, crawl time 10; re-attach with every incoming value
null. The stored row afterwards has url NULL, text NULL and word count 0 —
the UPDATE branch of `upsert_crawled_content` sets `url`, `markdown_content`
and `word_count` outright (only `crawled_at` is coalesced, keeping 10) — so
a null incoming value does not leave those stored fields untouched,
refuting the claim that the attach path applies the article upsert's
field-level coalesce-merge. -/
theorem attach_content_overwrites_cex :
    (upsert_crawled_content emptyDB 1 (some "u1") (some "body") (some 5) (some 10) 100).contents =
      [⟨1, some "u1", some "body", some 5, some 10, 100⟩] ∧
    (upsert_crawled_content
        (upsert_crawled_content emptyDB 1 (some "u1") (some "body") (some 5) (some 10) 100)
        1 none none none none 200).contents =
      [⟨1, none, none, some 0, some 10, 200⟩] := by
  constructor <;> rfl

/-- The UPDATE branch of `upsert_crawled_content`, isolated. -/
theorem attach_update_contents (db : DB) (aid : Nat) (url markdown : Option String)
    (wc cat : Option Int) (now : Int) (c : ContentRow)
    (hf : db.contents.find? (fun x => x.article_id == aid) = some c) :
    (upsert_crawled_content db aid url markdown wc cat now).contents =
      db.contents.map (fun x =>
        if x.article_id == aid then
          { x with
            url := url
            markdown_content := markdown
            word_count := some (pyIntOr wc)
            crawled_at := coalesce cat x.crawled_at
            updated_at := now }
        else x) := by
  simp only [upsert_crawled_content, hf]

/-- The INSERT branch of `upsert_crawled_content`, isolated. -/
theorem attach_insert_contents (db : DB) (aid : Nat) (url markdown : Option String)
    (wc cat : Option Int) (now : Int)
    (hf : db.contents.find? (fun x => x.article_id == aid) = none) :
    (upsert_crawled_content db aid url markdown wc cat now).contents =
      db.contents ++ [⟨aid, url, markdown, some (pyIntOr wc), some (cat.getD now), now⟩] := by
  simp only [upsert_crawled_content, hf]

/-- Mapping a key-preserving function over a list does not change how many
elements carry a given key. -/
theorem length_filter_key_map {α : Type} (key : α → Nat) (f : α → α) (l : List α)
    (hk : ∀ x, key (f x) = key x) (k : Nat) :
    ((l.map f).filter (fun x => key x == k)).length =
      (l.filter (fun x => key x == k)).length := by
  induction l with
  | nil => rfl
  | cons x t ih =>
    simp only [List.map_cons, List.filter, hk x]
    cases hx : key x == k <;> simp [ih]

/-- One `upsert_crawled_content` call preserves the at-most-one-content-row
invariant. -/
theorem contentUnique_upsert (db : DB) (aid : Nat) (url markdown : Option String)
    (wc cat : Option Int) (now : Int) (h : ContentUnique db) :
    ContentUnique (upsert_crawled_content db aid url markdown wc cat now) := by
  intro aid'
  cases hf : db.contents.find? (fun x => x.article_id == aid) with
  | some c =>
    rw [attach_update_contents db aid url markdown wc cat now c hf]
    exact le_of_eq_of_le
      (length_filter_key_map (fun x : ContentRow => x.article_id) _ db.contents
        (fun x => by cases hx : x.article_id == aid <;> simp [hx]) aid')
      (h aid')
  | none =>
    rw [attach_insert_contents db aid url markdown wc cat now hf]
    rw [List.filter_append]
    by_cases haid : aid' = aid
    · subst haid
      have h0 : db.contents.filter (fun x => x.article_id == aid') = [] :=
        List.filter_eq_nil_iff.2 (fun x hx => by
          simpa using List.find?_eq_none.1 hf x hx)
      rw [h0]
      simp [List.filter]
    · have hnew : (((⟨aid, url, markdown, some (pyIntOr wc), some (cat.getD now), now⟩ :
          ContentRow).article_id == aid')) = false := by
        simpa using Ne.symm haid
      simp only [List.filter, hnew]
      simpa using h aid'

/-- Any sequence of `upsert_crawled_content` calls preserves the
at-most-one-content-row invariant. -/
theorem contentUnique_applyAttaches (db : DB) (calls : List AttachCall)
    (h : ContentUnique db) : ContentUnique (applyAttaches db calls) := by
  induction calls generalizing db with
  | nil => simpa [applyAttaches] using h
  | cons k ks ih =>
    have h1 := contentUnique_upsert db k.article_id k.url k.markdown k.word_count
      k.crawled_at k.now h
    simpa [applyAttaches] using ih _ h1

/-- C7 (amended): `upsert_crawled_content` keeps at most one CrawledContent
row per entity across any sequence of calls, but its update path is not the
article upsert's coalesce-merge: a re-attachment overwrites `url`,
`markdown_content` and `word_count` with the incoming values outright
(a null word count is coerced to 0) and coalesces only `crawled_at`,
refreshing `updated_at`. -/
theorem attach_content_merge_amended
    (db : DB) (calls : List AttachCall) (h : ContentUnique db) :
    ContentUnique (applyAttaches db calls) ∧
    (∀ (aid : Nat) (url markdown : Option String) (wc cat : Option Int) (now : Int)
       (c : ContentRow),
      db.contents.find? (fun x => x.article_id == aid) = some c →
      (upsert_crawled_content db aid url markdown wc cat now).contents =
        db.contents.map (fun x =>
          if x.article_id == aid then
            { x with
              url := url
              markdown_content := markdown
              word_count := some (wc.getD 0)
              crawled_at := coalesce cat x.crawled_at
              updated_at := now }
          else x)) :=
  ⟨contentUnique_applyAttaches db calls h,
   fun aid url markdown wc cat now c hf =>
     attach_update_contents db aid url markdown wc cat now c hf⟩

/-- Witness for C7's amended statement: attaching content to entity 1 and
then re-attaching with all-null values keeps at most one content row. -/
theorem attach_content_merge_amended_inst :
    ContentUnique (applyAttaches emptyDB [demoAttach1, demoAttach2]) ∧
    (∀ (aid : Nat) (url markdown : Option String) (wc cat : Option Int) (now : Int)
       (c : ContentRow),
      emptyDB.contents.find? (fun x => x.article_id == aid) = some c →
      (upsert_crawled_content emptyDB aid url markdown wc cat now).contents =
        emptyDB.contents.map (fun x =>
          if x.article_id == aid then
            { x with
              url := url
              markdown_content := markdown
              word_count := some (wc.getD 0)
              crawled_at := coalesce cat x.crawled_at
              updated_at := now }
          else x)) :=
  attach_content_merge_amended emptyDB [demoAttach1, demoAttach2]
    (fun aid => by simp [emptyDB, ContentUnique])

/-- C1: upserting record A and then record B that resolve to the same
canonical URL, into a store not yet holding that URL, leaves exactly one
stored entity with that URL. In the resulting entity every field is
`coalesce` of B's supplied value with the value stored after upsert(A):
a field B supplies as non-null holds B's value, a field B supplies as
null/absent retains the value stored by upsert(A) (so with every B field
null the entity is unchanged apart from `updated_at`), and `updated_at` is
refreshed by the second call. -/
theorem upsert_article_coalesce_merge
    (db0 : DB) (A B : ArticleInput) (tA tB : Option String) (n1 n2 : Int) (u : String)
    (hA : resolveUrl A = some u) (hB : resolveUrl B = some u)
    (hWf : ∀ r ∈ db0.articles, r.id < db0.nextId)
    (hfresh : ∀ r ∈ db0.articles, r.url ≠ u) :
    ∃ (db1 db2 : DB) (r1 r2 : ArticleRow),
      upsert_article db0 A tA n1 = .ok (db1, db0.nextId) ∧
      upsert_article db1 B tB n2 = .ok (db2, db0.nextId) ∧
      db1.articles.find? (fun r => r.url == u) = some r1 ∧
      db2.articles.find? (fun r => r.url == u) = some r2 ∧
      (db2.articles.filter (fun r => r.url == u)).length = 1 ∧
      r2.title = coalesce B.title r1.title ∧
      r2.source = coalesce B.source r1.source ∧
      r2.author = coalesce B.author r1.author ∧
      r2.created_at = coalesce B.created_at r1.created_at ∧
      r2.published_date = coalesce B.published_date r1.published_date ∧
      r2.points = coalesce B.points r1.points ∧
      r2.comments_count = coalesce B.comments_count r1.comments_count ∧
      r2.description = coalesce B.description r1.description ∧
      r2.abstract = coalesce B.abstract r1.abstract ∧
      r2.category = coalesce B.category r1.category ∧
      r2.arxiv_id = coalesce B.arxiv_id r1.arxiv_id ∧
      r2.hn_url = coalesce B.hn_url r1.hn_url ∧
      r2.topic = coalesce tB r1.topic ∧
      r2.updated_at = n2 := by
  have hpfalse : ∀ x ∈ db0.articles, ((fun r : ArticleRow => r.url == u) x) = false :=
    fun x hx => beq_eq_false_iff_ne.2 (hfresh x hx)
  have hfind0 : db0.articles.find? (fun r => r.url == u) = none :=
    List.find?_eq_none.2 (fun x hx => by simp [hpfalse x hx])
  have h1 : upsert_article db0 A tA n1 =
      .ok ({ db0 with
               articles := db0.articles ++ [insertRow A tA u db0.nextId n1]
               nextId := db0.nextId + 1 }, db0.nextId) := by
    simp only [upsert_article, hA, hfind0]
  have hins_url : ((fun r : ArticleRow => r.url == u) (insertRow A tA u db0.nextId n1)) = true := by
    simp [insertRow]
  have hfind1 : (db0.articles ++ [insertRow A tA u db0.nextId n1]).find?
      (fun r => r.url == u) = some (insertRow A tA u db0.nextId n1) :=
    find?_append_singleton _ _ _ hpfalse hins_url
  have hmerge_url : ((fun r : ArticleRow => r.url == u)
      (mergeRow (insertRow A tA u db0.nextId n1) B tB n2)) = true := by
    simp [mergeRow, insertRow]
  have hmap : (db0.articles ++ [insertRow A tA u db0.nextId n1]).map
      (fun x => if x.id == (insertRow A tA u db0.nextId n1).id then
        mergeRow (insertRow A tA u db0.nextId n1) B tB n2 else x) =
      db0.articles ++ [mergeRow (insertRow A tA u db0.nextId n1) B tB n2] := by
    rw [List.map_append]
    congr 1
    · have hid : ∀ x ∈ db0.articles,
          (if x.id == (insertRow A tA u db0.nextId n1).id then
            mergeRow (insertRow A tA u db0.nextId n1) B tB n2 else x) = id x := by
        intro x hx
        have hlt := hWf x hx
        have hne : (x.id == db0.nextId) = false := by
          simp only [beq_eq_false_iff_ne]
          omega
        simp [insertRow, hne]
      rw [List.map_congr_left hid, List.map_id]
    · simp
  have h2 : upsert_article ({ db0 with
               articles := db0.articles ++ [insertRow A tA u db0.nextId n1]
               nextId := db0.nextId + 1 }) B tB n2 =
      .ok ({ db0 with
               articles := db0.articles ++ [mergeRow (insertRow A tA u db0.nextId n1) B tB n2]
               nextId := db0.nextId + 1 }, db0.nextId) := by
    simp only [upsert_article, hB, hfind1, hmap]
    rfl
  have hfind2 : (db0.articles ++ [mergeRow (insertRow A tA u db0.nextId n1) B tB n2]).find?
      (fun r => r.url == u) = some (mergeRow (insertRow A tA u db0.nextId n1) B tB n2) :=
    find?_append_singleton _ _ _ hpfalse hmerge_url
  have hfilter : ((db0.articles ++ [mergeRow (insertRow A tA u db0.nextId n1) B tB n2]).filter
      (fun r => r.url == u)).length = 1 := by
    rw [List.filter_append,
      show db0.articles.filter (fun r => r.url == u) = [] from
        List.filter_eq_nil_iff.2 (fun x hx => by simp [hpfalse x hx])]
    simp [List.filter, hmerge_url]
  exact ⟨_, _, insertRow A tA u db0.nextId n1,
    mergeRow (insertRow A tA u db0.nextId n1) B tB n2,
    h1, h2, hfind1, hfind2, hfilter,
    rfl, rfl, rfl, rfl, rfl, rfl, rfl, rfl, rfl, rfl, rfl, rfl, rfl, rfl⟩

/-- Witness for C1: the spec's idempotent-upsert scenario — a
discussion-site record (url p1, points 10, comments 3) followed by a feed
record for the same URL supplying only a description. -/
theorem upsert_article_coalesce_merge_inst :
    ∃ (db1 db2 : DB) (r1 r2 : ArticleRow),
      upsert_article emptyDB hnInput (some "ai") 5 = .ok (db1, emptyDB.nextId) ∧
      upsert_article db1 rssInput none 9 = .ok (db2, emptyDB.nextId) ∧
      db1.articles.find? (fun r => r.url == "https://example.org/p1") = some r1 ∧
      db2.articles.find? (fun r => r.url == "https://example.org/p1") = some r2 ∧
      (db2.articles.filter (fun r => r.url == "https://example.org/p1")).length = 1 ∧
      r2.title = coalesce rssInput.title r1.title ∧
      r2.source = coalesce rssInput.source r1.source ∧
      r2.author = coalesce rssInput.author r1.author ∧
      r2.created_at = coalesce rssInput.created_at r1.created_at ∧
      r2.published_date = coalesce rssInput.published_date r1.published_date ∧
      r2.points = coalesce rssInput.points r1.points ∧
      r2.comments_count = coalesce rssInput.comments_count r1.comments_count ∧
      r2.description = coalesce rssInput.description r1.description ∧
      r2.abstract = coalesce rssInput.abstract r1.abstract ∧
      r2.category = coalesce rssInput.category r1.category ∧
      r2.arxiv_id = coalesce rssInput.arxiv_id r1.arxiv_id ∧
      r2.hn_url = coalesce rssInput.hn_url r1.hn_url ∧
      r2.topic = coalesce none r1.topic ∧
      r2.updated_at = 9 :=
  upsert_article_coalesce_merge emptyDB hnInput rssInput (some "ai") none 5 9
    "https://example.org/p1" (by decide) (by decide)
    (by simp [emptyDB]) (by simp [emptyDB])

/-- C6: `query` returns the stored entries ordered by distance ascending —
the returned distance sequence is non-decreasing — and returns exactly
min(k, n) results, every one an entry of the collection carrying its own
distance; in particular querying with k = 5 on an index holding 3 entries
returns exactly 3 results. -/
theorem query_topk_sorted :
    (∀ (coll : List IndexEntry) (dist : IndexEntry → ℚ) (k : Nat),
      (queryModel coll dist k).length = min k coll.length ∧
      List.Pairwise (fun p q : IndexEntry × ℚ => p.2 ≤ q.2) (queryModel coll dist k) ∧
      ∀ p ∈ queryModel coll dist k, p.1 ∈ coll ∧ p.2 = dist p.1) ∧
    (queryModel demoColl demoDist 5).length = 3 ∧
    List.Pairwise (fun p q : IndexEntry × ℚ => p.2 ≤ q.2) (queryModel demoColl demoDist 5) := by
  have hmain : ∀ (coll : List IndexEntry) (dist : IndexEntry → ℚ) (k : Nat),
      (queryModel coll dist k).length = min k coll.length ∧
      List.Pairwise (fun p q : IndexEntry × ℚ => p.2 ≤ q.2) (queryModel coll dist k) ∧
      ∀ p ∈ queryModel coll dist k, p.1 ∈ coll ∧ p.2 = dist p.1 := by
    intro coll dist k
    refine ⟨?_, ?_, ?_⟩
    · rw [queryModel, List.length_take,
        (List.perm_insertionSort queryDistLe _).length_eq, List.length_map]
    · have hs : List.Sorted queryDistLe
          (List.insertionSort queryDistLe (coll.map (fun e => (e, dist e)))) :=
        List.sorted_insertionSort queryDistLe _
      exact List.Pairwise.sublist (List.take_sublist _ _) hs
    · intro p hp
      have hp1 : p ∈ List.insertionSort queryDistLe (coll.map (fun e => (e, dist e))) :=
        List.mem_of_mem_take hp
      have hp2 : p ∈ coll.map (fun e => (e, dist e)) :=
        (List.mem_insertionSort queryDistLe).1 hp1
      obtain ⟨e, he, heq⟩ := List.mem_map.1 hp2
      subst heq
      exact ⟨he, rfl⟩
  refine ⟨hmain, (hmain demoColl demoDist 5).1.trans (by decide), (hmain demoColl demoDist 5).2.1⟩

/-- Witness for C6 at a concrete query: the nearest entry returned on the
3-entry demo index belongs to the collection and carries its distance. -/
theorem query_topk_sorted_inst :
    ((⟨"b", "db", "", "", ""⟩, (1 : ℚ)) : IndexEntry × ℚ).1 ∈ demoColl ∧
    ((⟨"b", "db", "", "", ""⟩, (1 : ℚ)) : IndexEntry × ℚ).2 =
      demoDist ((⟨"b", "db", "", "", ""⟩, (1 : ℚ)) : IndexEntry × ℚ).1 :=
  (query_topk_sorted.1 demoColl demoDist 5).2.2 (⟨"b", "db", "", "", ""⟩, 1) (by decide)

/-- The descending date comparison is total. -/
theorem pubDescBle_total (x y : Option Int) :
    pubDescBle x y = true ∨ pubDescBle y x = true := by
  cases x <;> cases y <;> first
  | (simp [pubDescBle]; done)
  | (simp [pubDescBle]; omega)

/-- The descending date comparison is transitive. -/
theorem pubDescBle_trans {x y z : Option Int} (h1 : pubDescBle x y = true)
    (h2 : pubDescBle y z = true) : pubDescBle x z = true := by
  cases x <;> cases y <;> cases z <;> first
  | (simp_all [pubDescBle]; done)
  | (simp_all [pubDescBle]; omega)

/-- Index insertion is stable: inserting a row whose rowid is below every
rowid of the list, at the position chosen by the date-only index
comparison, keeps the ascending list lexicographically sorted (date
ascending, rowid ascending within equal dates). -/
theorem pairwise_revLex_orderedInsert (a : ArticleRow) (l : List ArticleRow)
    (hl : List.Pairwise (fun x y => fetchLexRevLe y x) l)
    (hlid : ∀ b ∈ l, a.id < b.id) :
    List.Pairwise (fun x y => fetchLexRevLe y x) (List.orderedInsert fetchAscLe a l) := by
  induction l with
  | nil => simp
  | cons b t ih =>
    rw [List.orderedInsert]
    split_ifs with h
    · refine List.Pairwise.cons ?_ hl
      intro c hc
      have hab : pubDescBle b.published_date a.published_date = true := h
      rcases List.mem_cons.1 hc with rfl | hct
      · cases hba : pubDescBle a.published_date c.published_date with
        | false => exact Or.inl hba
        | true => exact Or.inr ⟨hab, hba, le_of_lt (hlid c (List.mem_cons_self c t))⟩
      · have hcb := (List.pairwise_cons.1 hl).1 c hct
        cases hac : pubDescBle a.published_date c.published_date with
        | false => exact Or.inl hac
        | true =>
          rcases hcb with hbc_false | ⟨hcbt, hbct, hbid⟩
          · exact absurd (pubDescBle_trans hab hac) (by simp [hbc_false])
          · exact Or.inr ⟨pubDescBle_trans hcbt hab, hac,
              le_trans (le_of_lt (hlid b (List.mem_cons_self b t))) hbid⟩
    · have hba : pubDescBle b.published_date a.published_date = false := by
        simpa [fetchAscLe] using h
      refine List.Pairwise.cons
        ?_ (ih (List.pairwise_cons.1 hl).2 (fun x hx => hlid x (List.mem_cons_of_mem _ hx)))
      intro c hc
      rcases (List.mem_orderedInsert fetchAscLe).1 hc with rfl | hct
      · exact Or.inl hba
      · exact (List.pairwise_cons.1 hl).1 c hct

/-- Sorting rows in rowid order by the index comparison yields the index
content: dates ascending, rowid ascending within equal dates. -/
theorem pairwise_revLex_insertionSort (l : List ArticleRow)
    (hid : l.Pairwise (fun a b => a.id < b.id)) :
    List.Pairwise (fun x y => fetchLexRevLe y x) (List.insertionSort fetchAscLe l) := by
  induction l with
  | nil => simp
  | cons a t ih =>
    rw [List.insertionSort]
    apply pairwise_revLex_orderedInsert
    · exact ih (List.pairwise_cons.1 hid).2
    · intro b hb
      exact (List.pairwise_cons.1 hid).1 b ((List.mem_insertionSort fetchAscLe).1 hb)

/-- The reverse index scan is sorted date-descending with rowid descending
within equal dates. -/
theorem sorted_revLex_reverse_insertionSort (l : List ArticleRow)
    (hid : l.Pairwise (fun a b => a.id < b.id)) :
    List.Sorted fetchLexRevLe (List.insertionSort fetchAscLe l).reverse :=
  List.pairwise_reverse.2 (pairwise_revLex_insertionSort l hid)

/-- C8 counterexample: rows "b" (rowid 2) and "c" (rowid 3) share
publication date 20. A tie broken by insertion order would emit "b" before
"c", but the query's reverse scan of `idx_articles_published` emits
["c", "b", "a", "d"] — equal-date rows in reverse insertion order, the
NULL-dated row last — refuting the claimed tie-break. -/
theorem fetch_tie_break_cex :
    (fetch_articles_for_embedding ⟨demoArticles, [], 5⟩).map (fun f => f.url) =
      ["c", "b", "a", "d"] ∧
    (fetch_articles_for_embedding ⟨demoArticles, [], 5⟩).map (fun f => f.url) ≠
      ["b", "c", "a", "d"] := by
  constructor
  · rfl
  · decide

/-- C8 (amended): `fetch_articles_for_embedding` returns the left-outer
join of all stored entities with their possibly-absent content — a
projection of a permutation of the whole articles table, each row exposing
url, title, source, description and abstract, with a content text that is
the empty string when the entity has no content row — ordered by
publication time descending (NULL dates last), with ties broken by reverse
insertion order (descending rowid), as produced by SQLite's reverse scan of
`idx_articles_published`. -/
theorem fetch_for_embedding_ordered (db : DB)
    (hid : db.articles.Pairwise (fun a b => a.id < b.id)) :
    ∃ arts : List ArticleRow,
      fetch_articles_for_embedding db = arts.map (projectRow db.contents) ∧
      arts.Perm db.articles ∧
      List.Sorted fetchLexRevLe arts ∧
      (∀ a ∈ db.articles,
        (∀ c ∈ db.contents, c.article_id ≠ a.id) →
          (projectRow db.contents a).markdown_content = "") ∧
      (∀ a : ArticleRow,
        (projectRow db.contents a).url = a.url ∧
        (projectRow db.contents a).title = a.title ∧
        (projectRow db.contents a).source = a.source ∧
        (projectRow db.contents a).description = a.description ∧
        (projectRow db.contents a).abstract = a.abstract) := by
  refine ⟨(List.insertionSort fetchAscLe db.articles).reverse, rfl,
    (List.reverse_perm _).trans (List.perm_insertionSort _ _),
    sorted_revLex_reverse_insertionSort _ hid, ?_, fun a => ⟨rfl, rfl, rfl, rfl, rfl⟩⟩
  intro a _ hnone
  show contentTextFor db.contents a.id = ""
  have hfind : db.contents.find? (fun c => c.article_id == a.id) = none :=
    List.find?_eq_none.2 (fun c hc => by simpa using hnone c hc)
  simp only [contentTextFor, hfind]

/-- Witness for C8's amended statement on a four-row store with a duplicate
publication date and a NULL one. -/
theorem fetch_for_embedding_ordered_inst :
    ∃ arts : List ArticleRow,
      fetch_articles_for_embedding ⟨demoArticles, [], 5⟩ =
        arts.map (projectRow (⟨demoArticles, [], 5⟩ : DB).contents) ∧
      arts.Perm (⟨demoArticles, [], 5⟩ : DB).articles ∧
      List.Sorted fetchLexRevLe arts ∧
      (∀ a ∈ (⟨demoArticles, [], 5⟩ : DB).articles,
        (∀ c ∈ (⟨demoArticles, [], 5⟩ : DB).contents, c.article_id ≠ a.id) →
          (projectRow (⟨demoArticles, [], 5⟩ : DB).contents a).markdown_content = "") ∧
      (∀ a : ArticleRow,
        (projectRow (⟨demoArticles, [], 5⟩ : DB).contents a).url = a.url ∧
        (projectRow (⟨demoArticles, [], 5⟩ : DB).contents a).title = a.title ∧
        (projectRow (⟨demoArticles, [], 5⟩ : DB).contents a).source = a.source ∧
        (projectRow (⟨demoArticles, [], 5⟩ : DB).contents a).description = a.description ∧
        (projectRow (⟨demoArticles, [], 5⟩ : DB).contents a).abstract = a.abstract) :=
  fetch_for_embedding_ordered ⟨demoArticles, [], 5⟩ (by decide)

end ResearchAgent
